import Mathlib

/-!
Verification development for the `put-cache-control` bulk S3 metadata tool
(s3-assets-toolkit).  The per-object fix-up function `cp`, the worker loop
`cpworker` and the ETA rendering of the progress line are embedded as pure
Lean functions; the object store's behaviour during a run is a parameter
(`Store`), so a single call of `cp` is a deterministic function of the
configuration, the store's responses and the object key.
-/

namespace PutCacheControl

/-- Metadata snapshot of an object as returned by a HeadObject call:
`ContentType` and `CacheControl` are string pointers in the Go SDK, so each
is an `Option String` (a nil pointer is `none`). -/
structure ObjMeta where
  contentType : Option String
  cacheControl : Option String
  deriving Repr, DecidableEq

/-- Result of one HeadObject call.  `headAwsErr code` is an `awserr.Error`
with the given AWS error code (the code switches on `aerr.Code()`, where
"NotFound" is special); `headOtherErr` is an error that is not an
`awserr.Error` (the type assertion fails). -/
inductive HeadResult where
  | headOk (m : ObjMeta)
  | headAwsErr (code : String)
  | headOtherErr
  deriving Repr, DecidableEq

/-- The store's responses during one run, per object key: the HEAD result on
the source bucket, the HEAD result on the target bucket, and whether a
CopyObject call on that key succeeds. -/
structure Store where
  srcHead : String → HeadResult
  tgtHead : String → HeadResult
  copyOk : String → Bool

/-- The fields of `CopyContext` that the fix-up logic reads or writes.
`fromBucket` is the Go field `from` (a Lean keyword); `excludeMatch` is
`context.exclude.MatchString`.  The histograms `statusStats` / `typeStats`
(Go `map[string]int`) are association lists. -/
structure CopyContext where
  target : String
  fromBucket : String
  newvalue : String
  excludeMatch : String → Bool
  noop : Bool
  copiedObjects : ℤ
  maxObjectsToCopy : ℤ
  processedObjects : ℤ
  statusStats : List (String × Nat)
  typeStats : List (String × Nat)

/-- `m[k] += 1` on an association-list histogram. -/
def bump : List (String × Nat) → String → List (String × Nat)
  | [], k => [(k, 1)]
  | (k0, v) :: rest, k => if k0 = k then (k0, v + 1) :: rest else (k0, v) :: bump rest k

/-- The CopyObjectInput the code builds: bucket, copy source, key,
cache-control, content type and the metadata directive, exactly the fields
the Go code sets. -/
structure CopyObjectInput where
  bucket : String
  copySource : String
  key : String
  cacheControl : String
  contentType : String
  metadataDirective : String
  deriving Repr, DecidableEq

/-- An upper-case hexadecimal digit, as Go's net/url escaping emits. -/
def upperHexDigit (n : Nat) : Char := "0123456789ABCDEF".toList.getD n '0'

/-- Go net/url `shouldEscape` for mode encodePathSegment, on a byte value:
ASCII alphanumerics and `-._~` are never escaped; among the RFC 3986
specials `$&+,/:;=?@` a path segment keeps `$ & + : = @` and escapes
`/ ; , ?`; every other byte is escaped. -/
def shouldEscapePathSegment (c : Nat) : Bool :=
  if (97 ≤ c && c ≤ 122) || (65 ≤ c && c ≤ 90) || (48 ≤ c && c ≤ 57) then false
  else if c = 45 || c = 95 || c = 46 || c = 126 then false
  else if c = 36 || c = 38 || c = 43 || c = 58 || c = 61 || c = 64 then false
  else true

/-- Escape a single byte for a URL path segment: `%XX` when it must be
escaped, the raw character otherwise (the raw case only arises for ASCII). -/
def escapeByte (b : Nat) : String :=
  if shouldEscapePathSegment b then
    String.mk ['%', upperHexDigit (b / 16), upperHexDigit (b % 16)]
  else
    String.singleton (Char.ofNat b)

/-- The UTF-8 encoding of one code point, as byte values. -/
def utf8Bytes (c : Nat) : List Nat :=
  if c < 0x80 then [c]
  else if c < 0x800 then [0xC0 + c / 64, 0x80 + c % 64]
  else if c < 0x10000 then [0xE0 + c / 4096, 0x80 + c / 64 % 64, 0x80 + c % 64]
  else [0xF0 + c / 262144, 0x80 + c / 4096 % 64, 0x80 + c / 64 % 64, 0x80 + c % 64]

/-- Go `url.PathEscape`: escape every byte of the UTF-8 encoding that
`shouldEscape` flags for a path segment. -/
def pathEscape (s : String) : String :=
  String.join (((s.toList.map fun c => utf8Bytes c.toNat).flatten).map escapeByte)

/-- `IsPicture` from the source: it dereferences `meta.ContentType`
unconditionally (`switch *meta.ContentType`), so a missing content type is a
nil-pointer dereference, modelled as `none`; otherwise it reports whether
the content type is `image/jpeg` or `image/png`. -/
def IsPicture (meta : ObjMeta) : Option Bool :=
  match meta.contentType with
  | none => none
  | some ct => some (ct == "image/jpeg" || ct == "image/png")

/-- The target-HEAD handling of `cp`: on success the snapshot is kept; an
`awserr` with code "NotFound" sets `target = nil`; an `awserr` with any
other code is only logged to stderr and processing continues with the
zero-value `HeadObjectOutput` the SDK returned (all fields nil); a
non-`awserr` error makes `cp` return an error (`Except.error`). -/
def targetOf (store : Store) (name : String) : Except Unit (Option ObjMeta) :=
  match store.tgtHead name with
  | .headOk m => .ok (some m)
  | .headAwsErr code =>
      if code = "NotFound" then .ok none else .ok (some ⟨none, none⟩)
  | .headOtherErr => .error ()

/-- Which of the three error returns of `cp` fired. -/
inductive CpError where
  | srcHead
  | tgtHead
  | copyFail
  deriving Repr, DecidableEq

/-- How one `cp` call ends: `done status` is a nil return after printing the
status character; `failed e` is a non-nil error return; `nilDeref` is a
runtime nil-pointer dereference (the process crashes there). -/
inductive CpStep where
  | done (status : String)
  | failed (e : CpError)
  | nilDeref
  deriving Repr, DecidableEq

/-- The already-correct test of `cp`:
`target != nil && target.CacheControl != nil &&
*target.CacheControl == context.newvalue && target.ContentType != nil`. -/
def alreadyCorrect (target : Option ObjMeta) (newvalue : String) : Bool :=
  match target with
  | some t =>
      (match t.cacheControl with
       | some cc => cc == newvalue
       | none => false) && t.contentType.isSome
  | none => false

/-- The exclusion test `context.exclude.MatchString(name) && IsPicture(from)`
with Go's short-circuit `&&`: `IsPicture` (which may dereference nil) only
runs when the pattern matches. -/
def excludedOf (ctx : CopyContext) (fromMeta : ObjMeta) (name : String) : Option Bool :=
  if ctx.excludeMatch name then IsPicture fromMeta else some false

/-- The write-path decision on the content type: a nil source content type
means status "X" and the fallback type image/png; otherwise the status is
chosen by exact match (image/png → "g", image/jpeg → "j",
application/pdf → "P", anything else → "Y") and the type is kept. -/
def decideContentType : Option String → String × String
  | none => ("X", "image/png")
  | some ct =>
      (if ct == "image/png" then "g"
       else if ct == "image/jpeg" then "j"
       else if ct == "application/pdf" then "P"
       else "Y", ct)

/-- The tail of `cp` after the status decision: print the status (no state),
bump `statusStats[status]`, then compute `strings.Split(*contenttype, ";")[0]`
— a nil dereference when the content type is still nil — bump
`typeStats[ctype]` and increment `processedObjects`.  (The bump of
`statusStats` precedes the dereference, exactly as in the code.) -/
def finish (ctx : CopyContext) (status : String) (contenttype : Option String)
    (writes : List CopyObjectInput) : CpStep × CopyContext × List CopyObjectInput :=
  let ctx1 := { ctx with statusStats := bump ctx.statusStats status }
  match contenttype with
  | none => (.nilDeref, ctx1, writes)
  | some ct =>
      let ctype := (ct.splitOn ";").headD ""
      let ctx2 := { ctx1 with
        typeStats := bump ctx1.typeStats ctype
        processedObjects := ctx1.processedObjects + 1 }
      (.done status, ctx2, writes)

/-- The fix-up of one object key, `cp` from the source.  Returns how the
call ended, the updated context, and the list of CopyObject calls issued
(empty or a singleton).  The Go control flow in order: source HEAD (any
error returns), target HEAD (see `targetOf`), the exclusion check, the
already-correct check, the cap check `copiedObjects > maxObjectsToCopy`,
and otherwise the write path: decide the content type, build the copy
input, issue it unless `noop`, return the copy error if any, and increment
`copiedObjects` (also under `noop`).  The progress-line arithmetic that
follows in the source is display-only and is modelled by `etaLine` below. -/
def cp (ctx : CopyContext) (store : Store) (name : String) :
    CpStep × CopyContext × List CopyObjectInput :=
  match store.srcHead name with
  | .headAwsErr _ => (.failed .srcHead, ctx, [])
  | .headOtherErr => (.failed .srcHead, ctx, [])
  | .headOk fromMeta =>
    let contenttype := fromMeta.contentType
    match targetOf store name with
    | .error _ => (.failed .tgtHead, ctx, [])
    | .ok target =>
      match excludedOf ctx fromMeta name with
      | none => (.nilDeref, ctx, [])
      | some true => finish ctx "E" contenttype []
      | some false =>
        if alreadyCorrect target ctx.newvalue then
          finish ctx "." contenttype []
        else if ctx.copiedObjects > ctx.maxObjectsToCopy then
          finish ctx "," contenttype []
        else
          let sc := decideContentType contenttype
          let inp : CopyObjectInput :=
            { bucket := ctx.target
              copySource := ctx.fromBucket ++ "/" ++ pathEscape name
              key := name
              cacheControl := ctx.newvalue
              contentType := sc.2
              metadataDirective := "REPLACE" }
          if ctx.noop then
            finish { ctx with copiedObjects := ctx.copiedObjects + 1 } sc.1 (some sc.2) []
          else if store.copyOk name then
            finish { ctx with copiedObjects := ctx.copiedObjects + 1 } sc.1 (some sc.2) [inp]
          else
            (.failed .copyFail, ctx, [])

/-- What one worker produced over a list of dequeued keys: the final
context, the per-key step results (in order, up to a crash), all CopyObject
calls issued, the lines appended to the error_keys.txt failure file, and
whether the run died in a panic (failure-file open failure or nil
dereference). -/
structure RunOut where
  ctx : CopyContext
  steps : List CpStep
  writes : List CopyObjectInput
  errLines : List String
  aborted : Bool

/-- The loop body of `cpworker` folded over a list of keys (one worker,
sequential).  On a `cp` error the worker logs, opens error_keys.txt in
append mode — `openOk = false` models `os.OpenFile` failing, which the code
answers with `panic(err)`, ending the run — writes the key with
`fmt.Fprintln`, whose error the code ignores (`writeLineOk name = false`
models a failed write: the line is lost and the loop continues), and goes
on to the next key.  A nil dereference inside `cp` crashes the process. -/
def runNames (store : Store) (openOk : Bool) (writeLineOk : String → Bool) :
    CopyContext → List String → RunOut
  | ctx, [] => ⟨ctx, [], [], [], false⟩
  | ctx, name :: rest =>
    match cp ctx store name with
    | (.done s, ctx2, ws) =>
        let r := runNames store openOk writeLineOk ctx2 rest
        ⟨r.ctx, .done s :: r.steps, ws ++ r.writes, r.errLines, r.aborted⟩
    | (.failed e, ctx2, ws) =>
        if openOk then
          let line := if writeLineOk name then [name] else []
          let r := runNames store openOk writeLineOk ctx2 rest
          ⟨r.ctx, .failed e :: r.steps, ws ++ r.writes, line ++ r.errLines, r.aborted⟩
        else
          ⟨ctx2, [.failed e], ws, [], true⟩
    | (.nilDeref, ctx2, ws) => ⟨ctx2, [.nilDeref], ws, [], true⟩

/-- Go's `int(x)` float-to-int conversion: truncation toward zero. -/
def truncToZero (q : ℚ) : ℤ := if 0 ≤ q then ⌊q⌋ else ⌈q⌉

/-- The whole-second expected duration of the progress line:
`time.Duration(int(float64(expectedObjects-processedObjects)/o_s))` seconds,
with `o_s := float64(processedObjects)/sec`. -/
def etaDurationSec (expectedObjects processedObjects : ℤ) (sec : ℚ) : ℤ :=
  truncToZero ((expectedObjects - processedObjects : ℚ) / ((processedObjects : ℚ) / sec))

/-- `days := int(expectedDuration.Hours() / 24)` of the progress line. -/
def etaDays (expectedObjects processedObjects : ℤ) (sec : ℚ) : ℤ :=
  truncToZero ((etaDurationSec expectedObjects processedObjects sec : ℚ) / 3600 / 24)

/-- The shape of the rendered ETA: `"%dd %.1fh"`, `"%dh %.1fm"`, or the
sentinel `"-"`. -/
inductive EtaForm where
  | daysHours (days : ℤ) (andHours : ℚ)
  | hoursMinutes (hours : ℤ) (andMinutes : ℚ)
  | dash
  deriving Repr, DecidableEq

/-- The ETA rendering of the progress line, mirroring the overwrite order of
the source: first days+hours, overwritten by hours+minutes when `days == 0`,
overwritten by the sentinel when `expectedObjects < processedObjects`. -/
def etaLine (expectedObjects processedObjects : ℤ) (sec : ℚ) : EtaForm :=
  let durH : ℚ := (etaDurationSec expectedObjects processedObjects sec : ℚ) / 3600
  let days : ℤ := etaDays expectedObjects processedObjects sec
  let eta0 := EtaForm.daysHours days (durH - days * 24)
  let durM : ℚ := (etaDurationSec expectedObjects processedObjects sec : ℚ) / 60
  let hours : ℤ := truncToZero (durM / 60)
  let eta1 := if days = 0 then EtaForm.hoursMinutes hours (durM - hours * 60) else eta0
  if expectedObjects < processedObjects then EtaForm.dash else eta1

/-- The write-path outcome codes (the statuses under which a copy was
issued or suppressed only by `noop`). -/
def writtenStatus (s : String) : Bool :=
  s == "X" || s == "g" || s == "j" || s == "P" || s == "Y"

/-- Whether a `cp` call completed and printed a status character. -/
def isDone : CpStep → Bool
  | .done _ => true
  | .failed _ => false
  | .nilDeref => false

/-! ### Concrete run configurations used by the witnesses and counterexamples -/

/-- A concrete context: cap 5, no exclusions, writes enabled. -/
def testCtx : CopyContext where
  target := "tgt-bucket"
  fromBucket := "src-bucket"
  newvalue := "max-age=31536000,public"
  excludeMatch := fun _ => false
  noop := false
  copiedObjects := 0
  maxObjectsToCopy := 5
  processedObjects := 0
  statusStats := []
  typeStats := []

/-- A store where every source object is a PNG with no cache-control, the
target object does not exist yet, and copies succeed. -/
def pngStore : Store where
  srcHead := fun _ => .headOk ⟨some "image/png", none⟩
  tgtHead := fun _ => .headAwsErr "NotFound"
  copyOk := fun _ => true

/-- A store where the source HEAD of the key "bad" fails with an
unclassifiable error and every other key is a fresh PNG. -/
def failFirstStore : Store where
  srcHead := fun n =>
    if n == "bad" then .headOtherErr else .headOk ⟨some "image/png", none⟩
  tgtHead := fun _ => .headAwsErr "NotFound"
  copyOk := fun _ => true

/-- `testCtx` with an exclusion pattern that matches exactly "pic.png" and a
cap that is never reached. -/
def excCtx : CopyContext :=
  { testCtx with excludeMatch := fun n => n == "pic.png", maxObjectsToCopy := 1000000 }

/-- A store where source and target are PNGs that already carry the desired
cache-control value, so the already-correct test holds on every key. -/
def correctTargetStore : Store where
  srcHead := fun _ => .headOk ⟨some "image/png", some "max-age=31536000,public"⟩
  tgtHead := fun _ => .headOk ⟨some "image/png", some "max-age=31536000,public"⟩
  copyOk := fun _ => true

/-- A store whose source objects are JPEGs and whose target objects exist
with some other cache-control value. -/
def jpegPicStore : Store where
  srcHead := fun _ => .headOk ⟨some "image/jpeg", none⟩
  tgtHead := fun _ => .headOk ⟨some "image/jpeg", some "no-cache"⟩
  copyOk := fun _ => true

/-- A store whose target HEAD fails with a recognized AWS error whose code
is not "NotFound". -/
def accessDeniedStore : Store where
  srcHead := fun _ => .headOk ⟨some "image/png", none⟩
  tgtHead := fun _ => .headAwsErr "AccessDenied"
  copyOk := fun _ => true

/-- A store whose source objects carry no content type while the target
objects already have the desired cache-control and a content type. -/
def noTypeSkipStore : Store where
  srcHead := fun _ => .headOk ⟨none, none⟩
  tgtHead := fun _ => .headOk ⟨some "text/plain", some "max-age=31536000,public"⟩
  copyOk := fun _ => true

/-- A store whose source objects carry no content type and whose target
objects do not exist. -/
def noTypeFreshStore : Store where
  srcHead := fun _ => .headOk ⟨none, none⟩
  tgtHead := fun _ => .headAwsErr "NotFound"
  copyOk := fun _ => true

/-- `testCtx` with the dry-run flag set. -/
def noopCtx : CopyContext := { testCtx with noop := true }

/-! ### Helper lemmas -/

theorem finish_some_eq (ctx : CopyContext) (s ct : String) (ws : List CopyObjectInput) :
    finish ctx s (some ct) ws =
      (.done s,
       { ctx with
          statusStats := bump ctx.statusStats s
          typeStats := bump ctx.typeStats ((ct.splitOn ";").headD "")
          processedObjects := ctx.processedObjects + 1 },
       ws) := by
  rfl

theorem finish_copied (ctx : CopyContext) (s : String) (o : Option String)
    (ws : List CopyObjectInput) :
    (finish ctx s o ws).2.1.copiedObjects = ctx.copiedObjects := by
  cases o <;> rfl

theorem finish_processed_some (ctx : CopyContext) (s ct : String)
    (ws : List CopyObjectInput) :
    (finish ctx s (some ct) ws).2.1.processedObjects = ctx.processedObjects + 1 := by
  rfl

theorem finish_processed_none (ctx : CopyContext) (s : String)
    (ws : List CopyObjectInput) :
    (finish ctx s none ws).2.1.processedObjects = ctx.processedObjects := by
  rfl

theorem finish_fst_some (ctx : CopyContext) (s ct : String) (ws : List CopyObjectInput) :
    (finish ctx s (some ct) ws).1 = .done s := by
  rfl

theorem finish_fst_none (ctx : CopyContext) (s : String) (ws : List CopyObjectInput) :
    (finish ctx s none ws).1 = .nilDeref := by
  rfl

theorem finish_writes (ctx : CopyContext) (s : String) (o : Option String)
    (ws : List CopyObjectInput) :
    (finish ctx s o ws).2.2 = ws := by
  cases o <;> rfl

theorem writtenStatus_decideContentType (o : Option String) :
    writtenStatus (decideContentType o).1 = true := by
  cases o with
  | none => rfl
  | some ct =>
      simp only [decideContentType, writtenStatus]
      by_cases h1 : ct == "image/png" <;> by_cases h2 : ct == "image/jpeg" <;>
        by_cases h3 : ct == "application/pdf" <;> simp [h1, h2, h3]

theorem targetOf_total (store : Store) (name : String)
    (htgt : store.tgtHead name ≠ .headOtherErr) :
    ∃ t, targetOf store name = .ok t := by
  cases h : store.tgtHead name with
  | headOk m2 => exact ⟨some m2, by simp [targetOf, h]⟩
  | headAwsErr code =>
      by_cases hc : code = "NotFound"
      · exact ⟨none, by simp [targetOf, h, hc]⟩
      · exact ⟨some ⟨none, none⟩, by simp [targetOf, h, hc]⟩
  | headOtherErr => exact absurd h htgt

/-! ### Claims -/

/-- C1, counterexample: the cap check reads the copied counter, not the
processed counter, and compares strictly.  With cap 5 and six identifiers
all six receive the written outcome "g" (none yields CapReached), and a
single fix-up performed while the processed counter (100) already exceeds
the cap but the copied counter (0) does not is written, not capped. -/
theorem C1_counterexample :
    (runNames pngStore true (fun _ => true) testCtx
        ["k1", "k2", "k3", "k4", "k5", "k6"]).steps =
      [.done "g", .done "g", .done "g", .done "g", .done "g", .done "g"]
    ∧ (runNames pngStore true (fun _ => true) testCtx
        ["k1", "k2", "k3", "k4", "k5", "k6"]).writes.length = 6
    ∧ testCtx.maxObjectsToCopy = 5
    ∧ ({ testCtx with processedObjects := 100 }.processedObjects >
        { testCtx with processedObjects := 100 }.maxObjectsToCopy)
    ∧ (cp { testCtx with processedObjects := 100 } pngStore "k").1 = .done "g" := by
  decide

/-- C1 (amended): for every identifier that reaches the cap check (neither
Excluded nor Skipped) whose source metadata carries a content type
(otherwise the histogram update dereferences nil and no outcome is
produced), if the run's copied-so-far counter — not the processed counter —
strictly exceeds the configured maximum, the outcome is CapReached
(status ",") and no write call is issued (and the copied counter is left
unchanged). -/
theorem C1_cap_check (ctx : CopyContext) (store : Store) (name : String)
    (m : ObjMeta) (ct : String) (t : Option ObjMeta)
    (hsrc : store.srcHead name = .headOk m)
    (hct : m.contentType = some ct)
    (ht : targetOf store name = .ok t)
    (hexc : excludedOf ctx m name = some false)
    (hac : alreadyCorrect t ctx.newvalue = false)
    (hcap : ctx.copiedObjects > ctx.maxObjectsToCopy) :
    (cp ctx store name).1 = .done ","
    ∧ (cp ctx store name).2.2 = []
    ∧ (cp ctx store name).2.1.copiedObjects = ctx.copiedObjects := by
  simp [cp, hsrc, ht, hexc, hac, hcap, hct, finish_fst_some, finish_writes,
    finish_copied]

/-- Witness for C1: a context whose copied counter (6) exceeds the cap (5)
yields CapReached with no write. -/
theorem C1_cap_check_witness :
    (cp { testCtx with copiedObjects := 6 } pngStore "k").1 = .done ","
    ∧ (cp { testCtx with copiedObjects := 6 } pngStore "k").2.2 = []
    ∧ (cp { testCtx with copiedObjects := 6 } pngStore "k").2.1.copiedObjects =
        { testCtx with copiedObjects := 6 }.copiedObjects := by
  exact C1_cap_check _ pngStore "k" ⟨some "image/png", none⟩ "image/png" none
    rfl rfl rfl rfl rfl (by decide)

/-- C2, counterexample: an identifier matching the exclusion pattern whose
source is a picture yields Excluded even though its target object exists
with the desired cache-control and a content type set, so the claim's
unconditional "outcome is Skipped" fails. -/
theorem C2_counterexample :
    correctTargetStore.tgtHead "pic.png" =
      .headOk ⟨some "image/png", some excCtx.newvalue⟩
    ∧ (cp excCtx correctTargetStore "pic.png").1 = .done "E"
    ∧ (cp excCtx correctTargetStore "pic.png").1 ≠ .done "." := by
  decide

/-- C2 (amended): for every identifier whose target object exists with
cache-control equal to the desired value and a content type set, provided
the exclusion check does not fire and the source metadata carries a content
type (otherwise the histogram update dereferences nil), the outcome is
Skipped (status ".") and no write call occurs. -/
theorem C2_skip (ctx : CopyContext) (store : Store) (name : String)
    (m t : ObjMeta) (ct : String)
    (hsrc : store.srcHead name = .headOk m)
    (hct : m.contentType = some ct)
    (htgt : store.tgtHead name = .headOk t)
    (hcc : t.cacheControl = some ctx.newvalue)
    (htct : t.contentType.isSome = true)
    (hexc : excludedOf ctx m name = some false) :
    (cp ctx store name).1 = .done "."
    ∧ (cp ctx store name).2.2 = [] := by
  have ht : targetOf store name = .ok (some t) := by simp [targetOf, htgt]
  have hac : alreadyCorrect (some t) ctx.newvalue = true := by
    simp [alreadyCorrect, hcc, htct]
  simp [cp, hsrc, ht, hexc, hac, hct, finish_fst_some, finish_writes]

/-- Witness for C2: an already-correct target with no exclusion yields
Skipped and no write. -/
theorem C2_skip_witness :
    (cp testCtx correctTargetStore "k").1 = .done "."
    ∧ (cp testCtx correctTargetStore "k").2.2 = [] := by
  exact C2_skip testCtx correctTargetStore "k"
    ⟨some "image/png", some "max-age=31536000,public"⟩
    ⟨some "image/png", some "max-age=31536000,public"⟩ "image/png"
    rfl rfl rfl rfl rfl rfl

/-- C3: for every identifier matching the exclusion pattern whose source
content type is in the picture allow-list (image/jpeg, image/png), the
outcome is Excluded (status "E") and no write call occurs, for every target
HEAD response that the code classifies (any existing target metadata — in
particular any cache-control value — NotFound, or another recognized AWS
error code). -/
theorem C3_excluded (ctx : CopyContext) (store : Store) (name : String)
    (m : ObjMeta) (ct : String)
    (hsrc : store.srcHead name = .headOk m)
    (hct : m.contentType = some ct)
    (hpic : ct = "image/jpeg" ∨ ct = "image/png")
    (hexc : ctx.excludeMatch name = true)
    (htgt : store.tgtHead name ≠ .headOtherErr) :
    (cp ctx store name).1 = .done "E"
    ∧ (cp ctx store name).2.2 = [] := by
  have hpicB : IsPicture m = some true := by
    rcases hpic with h | h <;> simp [IsPicture, hct, h]
  have hexcB : excludedOf ctx m name = some true := by
    simp [excludedOf, hexc, hpicB]
  obtain ⟨t, ht⟩ := targetOf_total store name htgt
  simp [cp, hsrc, ht, hexcB, hct, finish_fst_some, finish_writes]

/-- Witness for C3: an excluded JPEG whose target exists with a different
cache-control yields Excluded and no write. -/
theorem C3_excluded_witness :
    (cp excCtx jpegPicStore "pic.png").1 = .done "E"
    ∧ (cp excCtx jpegPicStore "pic.png").2.2 = [] := by
  exact C3_excluded excCtx jpegPicStore "pic.png" ⟨some "image/jpeg", none⟩
    "image/jpeg" rfl rfl (Or.inl rfl) rfl (by decide)

/-- C4: on the write path (neither Excluded, Skipped nor CapReached, the
write enabled and the copy succeeding), the outcome code is determined by
exact match on the source content type — absent → "X" with the written type
defaulted to image/png, image/png → "g", image/jpeg → "j",
application/pdf → "P", anything else → "Y" — and exactly one copy request
is issued, carrying exactly the decided content type, the desired
cache-control value and the metadata-replace directive (on the target
bucket and key, with the path-escaped source). -/
theorem C4_write_path (ctx : CopyContext) (store : Store) (name : String)
    (m : ObjMeta) (t : Option ObjMeta)
    (hsrc : store.srcHead name = .headOk m)
    (ht : targetOf store name = .ok t)
    (hexc : excludedOf ctx m name = some false)
    (hac : alreadyCorrect t ctx.newvalue = false)
    (hcap : ¬ ctx.copiedObjects > ctx.maxObjectsToCopy)
    (hnoop : ctx.noop = false)
    (hcopy : store.copyOk name = true) :
    (cp ctx store name).1 =
      .done (match m.contentType with
             | none => "X"
             | some ct =>
                 if ct = "image/png" then "g"
                 else if ct = "image/jpeg" then "j"
                 else if ct = "application/pdf" then "P"
                 else "Y")
    ∧ (cp ctx store name).2.2 =
        [{ bucket := ctx.target
           copySource := ctx.fromBucket ++ "/" ++ pathEscape name
           key := name
           cacheControl := ctx.newvalue
           contentType := (match m.contentType with
                           | none => "image/png"
                           | some ct => ct)
           metadataDirective := "REPLACE" }] := by
  cases hct : m.contentType with
  | none =>
      simp [cp, hsrc, ht, hexc, hac, hcap, hnoop, hcopy, hct, decideContentType,
        finish_fst_some, finish_writes]
  | some ct =>
      simp [cp, hsrc, ht, hexc, hac, hcap, hnoop, hcopy, hct, decideContentType,
        finish_fst_some, finish_writes, beq_iff_eq]

/-- Witness for C4: a fresh PNG is written with status "g", content type
image/png, the desired cache-control and the REPLACE directive. -/
theorem C4_write_path_witness :
    (cp testCtx pngStore "k").1 = .done "g"
    ∧ (cp testCtx pngStore "k").2.2 =
        [{ bucket := "tgt-bucket"
           copySource := "src-bucket/k"
           key := "k"
           cacheControl := "max-age=31536000,public"
           contentType := "image/png"
           metadataDirective := "REPLACE" }] := by
  have h := C4_write_path testCtx pngStore "k" ⟨some "image/png", none⟩ none
    rfl rfl rfl rfl (by decide) rfl rfl
  exact ⟨h.1, h.2.trans (by decide)⟩

/-- C5, counterexample: with the no-op (dry-run) flag set, a write-path
identifier issues no copy call yet the copied counter is incremented, so
"never incremented when the write is suppressed by the no-op flag" fails. -/
theorem C5_counterexample :
    noopCtx.noop = true
    ∧ (cp noopCtx pngStore "k").1 = .done "g"
    ∧ (cp noopCtx pngStore "k").2.2 = []
    ∧ (cp noopCtx pngStore "k").2.1.copiedObjects = noopCtx.copiedObjects + 1 := by
  decide

/-- C5 (amended): the copied counter is incremented exactly when the write
path completes — a copy call was issued and succeeded, or the write was
suppressed by the no-op flag — and is never incremented on the Excluded,
Skipped or CapReached paths, on a failed copy, or on a crash. -/
theorem C5_copied_increment (ctx : CopyContext) (store : Store) (name : String) :
    (cp ctx store name).2.1.copiedObjects =
      ctx.copiedObjects +
        (match (cp ctx store name).1 with
         | .done s => if writtenStatus s then (1 : ℤ) else 0
         | .failed _ => 0
         | .nilDeref => 0) := by
  unfold cp
  cases hsrc : store.srcHead name with
  | headAwsErr code => simp
  | headOtherErr => simp
  | headOk m =>
      cases ht : targetOf store name with
      | error u => simp [ht]
      | ok target =>
          cases hexc : excludedOf ctx m name with
          | none => simp [ht, hexc]
          | some b =>
              cases b with
              | true =>
                  cases hct : m.contentType <;>
                    simp [ht, hexc, hct, finish_copied, finish_fst_none,
                      finish_fst_some, writtenStatus]
              | false =>
                  cases hac : alreadyCorrect target ctx.newvalue with
                  | true =>
                      cases hct : m.contentType <;>
                        simp [ht, hexc, hac, hct, finish_copied,
                          finish_fst_none, finish_fst_some, writtenStatus]
                  | false =>
                      by_cases hcap : ctx.copiedObjects > ctx.maxObjectsToCopy
                      · cases hct : m.contentType <;>
                          simp [ht, hexc, hac, hcap, hct, finish_copied,
                            finish_fst_none, finish_fst_some, writtenStatus]
                      · cases hnoop : ctx.noop with
                        | true =>
                            simp [ht, hexc, hac, hcap, hnoop, finish_copied,
                              finish_fst_some, writtenStatus_decideContentType]
                        | false =>
                            cases hcopy : store.copyOk name <;>
                              simp [ht, hexc, hac, hcap, hnoop, hcopy,
                                finish_copied, finish_fst_some,
                                writtenStatus_decideContentType]

/-- C6, counterexample: of two dequeued identifiers one fix-up fails (source
HEAD error) and does not increment the processed counter, so after the run
processed (1) differs from the number dequeued (2). -/
theorem C6_counterexample :
    (runNames failFirstStore true (fun _ => true) testCtx ["bad", "good"]).steps =
      [.failed .srcHead, .done "g"]
    ∧ (runNames failFirstStore true (fun _ => true) testCtx
        ["bad", "good"]).ctx.processedObjects = 1 := by
  decide

theorem cp_processed_eq (ctx : CopyContext) (store : Store) (name : String) :
    (cp ctx store name).2.1.processedObjects =
      ctx.processedObjects +
        (match (cp ctx store name).1 with
         | .done _ => (1 : ℤ)
         | .failed _ => 0
         | .nilDeref => 0) := by
  unfold cp
  cases hsrc : store.srcHead name with
  | headAwsErr code => simp
  | headOtherErr => simp
  | headOk m =>
      cases ht : targetOf store name with
      | error u => simp [ht]
      | ok target =>
          cases hexc : excludedOf ctx m name with
          | none => simp [ht, hexc]
          | some b =>
              cases b with
              | true =>
                  cases hct : m.contentType <;>
                    simp [ht, hexc, hct, finish_processed_none,
                      finish_processed_some, finish_fst_none, finish_fst_some]
              | false =>
                  cases hac : alreadyCorrect target ctx.newvalue with
                  | true =>
                      cases hct : m.contentType <;>
                        simp [ht, hexc, hac, hct, finish_processed_none,
                          finish_processed_some, finish_fst_none,
                          finish_fst_some]
                  | false =>
                      by_cases hcap : ctx.copiedObjects > ctx.maxObjectsToCopy
                      · cases hct : m.contentType <;>
                          simp [ht, hexc, hac, hcap, hct,
                            finish_processed_none, finish_processed_some,
                            finish_fst_none, finish_fst_some]
                      · cases hnoop : ctx.noop with
                        | true =>
                            simp [ht, hexc, hac, hcap, hnoop,
                              finish_processed_some, finish_fst_some]
                        | false =>
                            cases hcopy : store.copyOk name <;>
                              simp [ht, hexc, hac, hcap, hnoop, hcopy,
                                finish_processed_some, finish_fst_some]

theorem runNames_processed (store : Store) (o : Bool) (w : String → Bool)
    (names : List String) : ∀ ctx : CopyContext,
    (runNames store o w ctx names).ctx.processedObjects =
      ctx.processedObjects +
        (((runNames store o w ctx names).steps.countP fun s => isDone s) : ℤ) := by
  induction names with
  | nil => intro ctx; simp [runNames]
  | cons name rest ih =>
      intro ctx
      have hcp := cp_processed_eq ctx store name
      rcases hres : cp ctx store name with ⟨step, ctx2, ws⟩
      rw [hres] at hcp
      cases step with
      | done s =>
          simp only at hcp
          simp [runNames, hres, ih ctx2, isDone, List.countP_cons, hcp]
          ring
      | failed e =>
          simp only at hcp
          cases o with
          | true =>
              simp [runNames, hres, ih ctx2, isDone, List.countP_cons, hcp]
          | false =>
              simp [runNames, hres, isDone, List.countP_cons, hcp]
      | nilDeref =>
          simp only at hcp
          simp [runNames, hres, isDone, List.countP_cons, hcp]

/-- C6 (amended): the processed counter is incremented exactly once for
every identifier whose fix-up completes (prints a status), and is not
incremented when the fix-up returns an error or crashes; hence after a run
the processed counter equals the number of identifiers whose fix-up
completed, not the number dequeued. -/
theorem C6_processed_increment :
    (∀ (ctx : CopyContext) (store : Store) (name : String),
        (cp ctx store name).2.1.processedObjects =
          ctx.processedObjects +
            (match (cp ctx store name).1 with
             | .done _ => (1 : ℤ)
             | .failed _ => 0
             | .nilDeref => 0))
    ∧ (∀ (store : Store) (o : Bool) (w : String → Bool) (names : List String)
        (ctx : CopyContext),
        (runNames store o w ctx names).ctx.processedObjects =
          ctx.processedObjects +
            (((runNames store o w ctx names).steps.countP fun s => isDone s) : ℤ)) :=
  ⟨cp_processed_eq, runNames_processed⟩

/-- C7, counterexample: a recognized target-HEAD store error whose code is
not "NotFound" ("AccessDenied") does not make the fix-up return a failure —
it is only logged and the fix-up proceeds to a written outcome. -/
theorem C7_counterexample :
    accessDeniedStore.tgtHead "k" = .headAwsErr "AccessDenied"
    ∧ "AccessDenied" ≠ "NotFound"
    ∧ (cp testCtx accessDeniedStore "k").1 = .done "g" := by
  decide

/-- C7 (amended): a source metadata-read error and a copy error make the
fix-up return a failure, as does a target metadata-read error that is not a
recognized store error; a recognized "NotFound" on the target is the
non-error case treated as no existing target object; a recognized target
error with any other code is only logged and fix-up continues as if the
target object existed with no metadata. -/
theorem C7_error_propagation :
    (∀ ctx store name code, store.srcHead name = .headAwsErr code →
        cp ctx store name = (.failed .srcHead, ctx, []))
    ∧ (∀ ctx store name, store.srcHead name = .headOtherErr →
        cp ctx store name = (.failed .srcHead, ctx, []))
    ∧ (∀ ctx store name m, store.srcHead name = .headOk m →
        store.tgtHead name = .headOtherErr →
        cp ctx store name = (.failed .tgtHead, ctx, []))
    ∧ (∀ store name, store.tgtHead name = .headAwsErr "NotFound" →
        targetOf store name = .ok none)
    ∧ (∀ store name code, store.tgtHead name = .headAwsErr code →
        code ≠ "NotFound" → targetOf store name = .ok (some ⟨none, none⟩))
    ∧ (∀ ctx store name m t, store.srcHead name = .headOk m →
        targetOf store name = .ok t →
        excludedOf ctx m name = some false →
        alreadyCorrect t ctx.newvalue = false →
        ¬ ctx.copiedObjects > ctx.maxObjectsToCopy →
        ctx.noop = false → store.copyOk name = false →
        cp ctx store name = (.failed .copyFail, ctx, [])) := by
  refine ⟨?_, ?_, ?_, ?_, ?_, ?_⟩
  · intro ctx store name code h
    simp [cp, h]
  · intro ctx store name h
    simp [cp, h]
  · intro ctx store name m h1 h2
    simp [cp, h1, targetOf, h2]
  · intro store name h
    simp [targetOf, h]
  · intro store name code h hne
    simp [targetOf, h, hne]
  · intro ctx store name m t hsrc ht hexc hac hcap hnoop hcopy
    simp [cp, hsrc, ht, hexc, hac, hcap, hnoop, hcopy]

/-- Witness for C7: a failing source HEAD returns a source failure, a
"NotFound" target HEAD is classified as no target object, and another
recognized target error code is classified as an empty target snapshot. -/
theorem C7_error_propagation_witness :
    cp testCtx failFirstStore "bad" = (.failed .srcHead, testCtx, [])
    ∧ targetOf pngStore "k" = .ok none
    ∧ targetOf accessDeniedStore "k" = .ok (some ⟨none, none⟩) := by
  exact ⟨C7_error_propagation.2.1 testCtx failFirstStore "bad" rfl,
    C7_error_propagation.2.2.2.1 pngStore "k" rfl,
    C7_error_propagation.2.2.2.2.1 accessDeniedStore "k" "AccessDenied" rfl
      (by decide)⟩

/-- C8, counterexample: when the fix-up of "bad" fails and the write of its
line to the failure file fails (its error is ignored by the code), the run
does not terminate — the next identifier is still processed — and the
identifier is silently lost from the failure file. -/
theorem C8_counterexample :
    (cp testCtx failFirstStore "bad").1 = .failed .srcHead
    ∧ (runNames failFirstStore true (fun _ => false) testCtx
        ["bad", "good"]).aborted = false
    ∧ (runNames failFirstStore true (fun _ => false) testCtx
        ["bad", "good"]).steps = [.failed .srcHead, .done "g"]
    ∧ (runNames failFirstStore true (fun _ => false) testCtx
        ["bad", "good"]).errLines = [] := by
  decide

/-- C8 (amended): when the fix-up of an identifier fails, the worker appends
that identifier (one per line) to the failure file and continues with the
next identifier; if opening the failure file fails the whole run terminates
(fail-fast); an error from writing the line itself is ignored — the run
continues and the identifier is lost from the file. -/
theorem C8_failure_sink :
    (∀ ctx store w name rest e ctx2 ws,
        cp ctx store name = (.failed e, ctx2, ws) → w name = true →
        runNames store true w ctx (name :: rest) =
          ⟨(runNames store true w ctx2 rest).ctx,
           .failed e :: (runNames store true w ctx2 rest).steps,
           ws ++ (runNames store true w ctx2 rest).writes,
           name :: (runNames store true w ctx2 rest).errLines,
           (runNames store true w ctx2 rest).aborted⟩)
    ∧ (∀ ctx store w name rest e ctx2 ws,
        cp ctx store name = (.failed e, ctx2, ws) → w name = false →
        runNames store true w ctx (name :: rest) =
          ⟨(runNames store true w ctx2 rest).ctx,
           .failed e :: (runNames store true w ctx2 rest).steps,
           ws ++ (runNames store true w ctx2 rest).writes,
           (runNames store true w ctx2 rest).errLines,
           (runNames store true w ctx2 rest).aborted⟩)
    ∧ (∀ ctx store w name rest e ctx2 ws,
        cp ctx store name = (.failed e, ctx2, ws) →
        runNames store false w ctx (name :: rest) =
          ⟨ctx2, [.failed e], ws, [], true⟩) := by
  refine ⟨?_, ?_, ?_⟩
  · intro ctx store w name rest e ctx2 ws hcp hw
    simp [runNames, hcp, hw]
  · intro ctx store w name rest e ctx2 ws hcp hw
    simp [runNames, hcp, hw]
  · intro ctx store w name rest e ctx2 ws hcp
    simp [runNames, hcp]

/-- Witness for C8: a failing identifier is recorded and the run continues
when the file write succeeds; it terminates the run when the file cannot be
opened. -/
theorem C8_failure_sink_witness :
    runNames failFirstStore true (fun _ => true) testCtx ["bad"] =
      ⟨(runNames failFirstStore true (fun _ => true) testCtx []).ctx,
       .failed .srcHead ::
         (runNames failFirstStore true (fun _ => true) testCtx []).steps,
       [] ++ (runNames failFirstStore true (fun _ => true) testCtx []).writes,
       "bad" :: (runNames failFirstStore true (fun _ => true) testCtx []).errLines,
       (runNames failFirstStore true (fun _ => true) testCtx []).aborted⟩
    ∧ runNames failFirstStore false (fun _ => true) testCtx ["bad", "good"] =
        ⟨testCtx, [.failed .srcHead], [], [], true⟩ := by
  exact ⟨C8_failure_sink.1 testCtx failFirstStore (fun _ => true) "bad" []
      .srcHead testCtx [] rfl rfl,
    C8_failure_sink.2.2 testCtx failFirstStore (fun _ => true) "bad" ["good"]
      .srcHead testCtx [] rfl⟩

/-- C9, counterexample: with expected = processed = 1 (estimated remaining
count zero, hence zero remaining time) the ETA is rendered as hours+minutes
("0h 0.0m"), not as the sentinel: the sentinel requires expected to be
strictly below processed. -/
theorem C9_counterexample :
    (1 : ℤ) - (1 : ℤ) = 0
    ∧ etaLine 1 1 1 = .hoursMinutes 0 0
    ∧ etaLine 1 1 1 ≠ .dash := by
  have h : etaLine 1 1 1 = .hoursMinutes 0 0 := by
    norm_num [etaLine, etaDays, etaDurationSec, truncToZero]
  exact ⟨by norm_num, h, by simp [h]⟩

/-- C9 (amended): the ETA is the sentinel "-" exactly when expected total
minus processed is strictly negative; when the difference is zero or
positive the remaining whole-day count is non-negative and the ETA is
rendered as days+hours when it is non-zero and as hours+minutes when it is
zero. -/
theorem C9_eta (e p : ℤ) (sec : ℚ) (hp : 0 < p) (hs : 0 < sec) :
    (etaLine e p sec = .dash ↔ e < p)
    ∧ (p ≤ e → 0 ≤ etaDays e p sec)
    ∧ (p ≤ e → etaDays e p sec = 0 →
        etaLine e p sec =
          .hoursMinutes (truncToZero ((etaDurationSec e p sec : ℚ) / 60 / 60))
            ((etaDurationSec e p sec : ℚ) / 60 -
              truncToZero ((etaDurationSec e p sec : ℚ) / 60 / 60) * 60))
    ∧ (p ≤ e → etaDays e p sec ≠ 0 →
        etaLine e p sec =
          .daysHours (etaDays e p sec)
            ((etaDurationSec e p sec : ℚ) / 3600 - etaDays e p sec * 24)) := by
  refine ⟨?_, ?_, ?_, ?_⟩
  · constructor
    · intro hdash
      by_contra hlt
      by_cases hd : etaDays e p sec = 0 <;>
        simp [etaLine, hlt, hd] at hdash
    · intro hlt
      simp [etaLine, hlt]
  · intro hpe
    have hdur : (0 : ℚ) ≤ (etaDurationSec e p sec : ℚ) := by
      have h1 : (0 : ℚ) ≤ (e - p : ℤ) := by
        exact_mod_cast sub_nonneg.mpr hpe
      have h2 : (0 : ℚ) < (p : ℚ) / sec := by
        apply div_pos _ hs
        exact_mod_cast hp
      have h3 : (0 : ℚ) ≤ ((e : ℚ) - (p : ℚ)) / ((p : ℚ) / sec) := by
        apply div_nonneg _ h2.le
        rw [sub_nonneg]
        exact_mod_cast hpe
      have : 0 ≤ etaDurationSec e p sec := by
        simpa [etaDurationSec, truncToZero, h3] using Int.floor_nonneg.mpr h3
      exact_mod_cast this
    have h4 : (0 : ℚ) ≤ (etaDurationSec e p sec : ℚ) / 3600 / 24 := by positivity
    simpa [etaDays, truncToZero, h4] using Int.floor_nonneg.mpr h4
  · intro hpe hd
    simp [etaLine, not_lt.mpr hpe, hd]
  · intro hpe hd
    simp [etaLine, not_lt.mpr hpe, hd]

/-- Witness for C9: the amended rendering rules at expected 2, processed 1,
one elapsed second. -/
theorem C9_eta_witness :
    (etaLine 2 1 1 = .dash ↔ (2 : ℤ) < 1)
    ∧ ((1 : ℤ) ≤ 2 → 0 ≤ etaDays 2 1 1)
    ∧ ((1 : ℤ) ≤ 2 → etaDays 2 1 1 = 0 →
        etaLine 2 1 1 =
          .hoursMinutes (truncToZero ((etaDurationSec 2 1 1 : ℚ) / 60 / 60))
            ((etaDurationSec 2 1 1 : ℚ) / 60 -
              truncToZero ((etaDurationSec 2 1 1 : ℚ) / 60 / 60) * 60))
    ∧ ((1 : ℤ) ≤ 2 → etaDays 2 1 1 ≠ 0 →
        etaLine 2 1 1 =
          .daysHours (etaDays 2 1 1)
            ((etaDurationSec 2 1 1 : ℚ) / 3600 - etaDays 2 1 1 * 24)) :=
  C9_eta 2 1 1 (by norm_num) (by norm_num)

theorem excludedOf_isSome (ctx : CopyContext) (m : ObjMeta) (name : String)
    (ct : String) (hct : m.contentType = some ct) :
    excludedOf ctx m name =
      some (ctx.excludeMatch name && (ct == "image/jpeg" || ct == "image/png")) := by
  by_cases h : ctx.excludeMatch name <;> simp [excludedOf, IsPicture, hct, h]

theorem cp_no_nilDeref (ctx : CopyContext) (store : Store) (name : String)
    (m : ObjMeta) (ct : String)
    (hsrc : store.srcHead name = .headOk m) (hct : m.contentType = some ct) :
    (cp ctx store name).1 ≠ .nilDeref := by
  have hexc := excludedOf_isSome ctx m name ct hct
  unfold cp
  cases ht : targetOf store name with
  | error u => simp [hsrc, ht]
  | ok target =>
      cases hb : ctx.excludeMatch name && (ct == "image/jpeg" || ct == "image/png") with
      | true =>
          simp [hsrc, ht, hexc, hb, hct, finish_fst_some]
      | false =>
          cases hac : alreadyCorrect target ctx.newvalue with
          | true => simp [hsrc, ht, hexc, hb, hac, hct, finish_fst_some]
          | false =>
              by_cases hcap : ctx.copiedObjects > ctx.maxObjectsToCopy
              · simp [hsrc, ht, hexc, hb, hac, hcap, hct, finish_fst_some]
              · cases hnoop : ctx.noop with
                | true =>
                    simp [hsrc, ht, hexc, hb, hac, hcap, hnoop,
                      finish_fst_some]
                | false =>
                    cases hcopy : store.copyOk name <;>
                      simp [hsrc, ht, hexc, hb, hac, hcap, hnoop, hcopy,
                        finish_fst_some]

/-- C10: the fix-up is total exactly when the source metadata carries a
content type: whenever the source HEAD yields a content type the evaluation
never hits a nil dereference; and with an absent source content type, an
identifier matching the exclusion pattern crashes in the picture
classification, and one taking the Skipped or CapReached path crashes in
the content-type histogram update, instead of producing an outcome. -/
theorem C10_nil_deref :
    (∀ ctx store name,
        (∀ m, store.srcHead name = .headOk m → m.contentType.isSome = true) →
        (cp ctx store name).1 ≠ .nilDeref)
    ∧ (∀ ctx store name m t, store.srcHead name = .headOk m →
        m.contentType = none → ctx.excludeMatch name = true →
        targetOf store name = .ok t →
        (cp ctx store name).1 = .nilDeref)
    ∧ (∀ ctx store name m t, store.srcHead name = .headOk m →
        m.contentType = none → ctx.excludeMatch name = false →
        targetOf store name = .ok t → alreadyCorrect t ctx.newvalue = true →
        (cp ctx store name).1 = .nilDeref)
    ∧ (∀ ctx store name m t, store.srcHead name = .headOk m →
        m.contentType = none → ctx.excludeMatch name = false →
        targetOf store name = .ok t → alreadyCorrect t ctx.newvalue = false →
        ctx.copiedObjects > ctx.maxObjectsToCopy →
        (cp ctx store name).1 = .nilDeref) := by
  refine ⟨?_, ?_, ?_, ?_⟩
  · intro ctx store name hsome
    cases hsrc : store.srcHead name with
    | headAwsErr code => simp [cp, hsrc]
    | headOtherErr => simp [cp, hsrc]
    | headOk m =>
        obtain ⟨ct, hct⟩ := Option.isSome_iff_exists.mp (hsome m hsrc)
        exact cp_no_nilDeref ctx store name m ct hsrc hct
  · intro ctx store name m t hsrc hct hmatch ht
    simp [cp, hsrc, ht, excludedOf, hmatch, IsPicture, hct]
  · intro ctx store name m t hsrc hct hmatch ht hac
    simp [cp, hsrc, ht, excludedOf, hmatch, hac, hct, finish_fst_none]
  · intro ctx store name m t hsrc hct hmatch ht hac hcap
    simp [cp, hsrc, ht, excludedOf, hmatch, hac, hcap, hct, finish_fst_none]

/-- Witness for C10: a PNG source never crashes; a source with no content
type crashes when excluded, when its target is already correct, and when
the cap has been exceeded. -/
theorem C10_nil_deref_witness :
    (cp testCtx pngStore "k").1 ≠ .nilDeref
    ∧ (cp excCtx noTypeSkipStore "pic.png").1 = .nilDeref
    ∧ (cp testCtx noTypeSkipStore "k").1 = .nilDeref
    ∧ (cp { testCtx with copiedObjects := 6 } noTypeFreshStore "k").1 =
        .nilDeref := by
  refine ⟨C10_nil_deref.1 testCtx pngStore "k" ?_,
    C10_nil_deref.2.1 excCtx noTypeSkipStore "pic.png" ⟨none, none⟩
      (some ⟨some "text/plain", some "max-age=31536000,public"⟩) rfl rfl rfl rfl,
    C10_nil_deref.2.2.1 testCtx noTypeSkipStore "k" ⟨none, none⟩
      (some ⟨some "text/plain", some "max-age=31536000,public"⟩) rfl rfl rfl rfl
      (by decide),
    C10_nil_deref.2.2.2 { testCtx with copiedObjects := 6 } noTypeFreshStore "k"
      ⟨none, none⟩ none rfl rfl rfl rfl rfl (by decide)⟩
  intro m hm
  injection hm with h
  rw [← h]
  rfl

end PutCacheControl
